import Mathlib

/-!
Verification of the cognito-client attribute/result mapping layer.

JavaScript strings are embedded as `List Char`; the ASCII fragments of
`String.prototype.toUpperCase` / `toLowerCase` (the only fragments the
mapping code relies on) are embedded as `upChar` / `downChar`.  Optional
fields of provider payloads are embedded as `Option`, so that an absent
field (`none`) is distinguished from a present-but-empty one
(`some []`), matching the distinction between `undefined` and a falsy
value in the source.  A thrown exception is embedded as `Except.error`
carrying the thrown `JSValue`.
-/

/-- Converts a Lean string literal to the `List Char` representation used
for JavaScript strings throughout this development. -/
def str (s : String) : List Char := s.data

/-- Tests membership of the ASCII range matched by the regex class
written as a dash-underscore capture of a lowercase letter in the source
(code points 97 to 122). -/
def isAsciiLower (c : Char) : Bool := decide (97 ≤ c.toNat) && decide (c.toNat ≤ 122)

/-- Tests membership of the ASCII uppercase range (code points 65 to 90). -/
def isAsciiUpper (c : Char) : Bool := decide (65 ≤ c.toNat) && decide (c.toNat ≤ 90)

/-- Tests whether a character is one of the two separator characters the
source collapses, the dash and the underscore. -/
def isSep (c : Char) : Bool := c = '-' || c = '_'

/-- ASCII fragment of the JavaScript single-character `toUpperCase`. -/
def upChar (c : Char) : Char :=
  if isAsciiLower c then Char.ofNat (c.toNat - 32) else c

/-- ASCII fragment of the JavaScript single-character `toLowerCase`. -/
def downChar (c : Char) : Char :=
  if isAsciiUpper c then Char.ofNat (c.toNat + 32) else c

/-- Embeds the global regex replacement in `mapAttributes` (part_001 line
60): every dash or underscore immediately followed by an ASCII lowercase
letter is deleted and that letter uppercased, scanning left to right with
non-overlapping matches. -/
def collapseSeps : List Char → List Char
  | [] => []
  | [a] => [a]
  | a :: b :: rest =>
    if isSep a && isAsciiLower b then upChar b :: collapseSeps rest
    else a :: collapseSeps (b :: rest)

/-- Holds when a character list contains no dash or underscore immediately
followed by an ASCII lowercase letter, i.e. when `collapseSeps` leaves it
unchanged. -/
def noSepPair : List Char → Bool
  | a :: b :: rest => !(isSep a && isAsciiLower b) && noSepPair (b :: rest)
  | _ => true

/-- Embeds the AWS SDK `AttributeType`: a name/value pair whose two fields
are both optional strings. -/
structure AttributeType where
  Name : Option (List Char)
  Value : Option (List Char)
deriving DecidableEq

/-- JavaScript truthiness of an optional string: an absent field and the
empty string are falsy, every other string is truthy. -/
def truthy : Option (List Char) → Bool
  | none => false
  | some s => !s.isEmpty

/-- Embeds the custom-namespace step of `mapAttributes` (part_001 lines
50 to 57): when the provider name starts with the literal string spelled
c-u-s-t-o-m-colon, strip those seven characters, uppercase the first
remaining character, and prepend the six-character literal again. -/
def customStep (name : List Char) : List Char :=
  if (str "custom:").isPrefixOf name then
    match name.drop 7 with
    | [] => str "custom"
    | c :: rest => str "custom" ++ upChar c :: rest
  else name

/-- The application-side key computed by `mapAttributes` for one provider
attribute name: the custom-namespace step followed by the separator
collapse (part_001 lines 50 to 60). -/
def attrKey (name : List Char) : List Char := collapseSeps (customStep name)

/-- Embeds assignment to a JavaScript object key: an existing string key
keeps its position and gets the new value, a new key is appended. -/
def recordSet : List (List Char × List Char) → List Char → List Char →
    List (List Char × List Char)
  | [], k, v => [(k, v)]
  | (k₀, v₀) :: rest, k, v =>
    if k₀ = k then (k₀, v) :: rest else (k₀, v₀) :: recordSet rest k v

/-- Embeds `mapAttributes` (part_001 lines 45 to 67), the provider-to-
application direction of the attribute mapper: entries whose name or
value is absent or empty are skipped, surviving entries are stored under
`attrKey` of their name.  The resulting object is embedded as an
association list in iteration order. -/
def mapAttributes (attributes : List AttributeType) : List (List Char × List Char) :=
  attributes.foldl
    (fun result attr =>
      if truthy attr.Name && truthy attr.Value then
        recordSet result (attrKey (attr.Name.getD [])) (attr.Value.getD [])
      else result)
    []

/-- Embeds the key transform of `mapToAttributeList` (part_001 lines 77
to 84): a key that starts with the six-character custom literal, differs
from it, and is longer than six characters is rewritten to the
colon-separated form with its seventh character lowercased; every other
key is unchanged. -/
def provName (key : List Char) : List Char :=
  if (str "custom").isPrefixOf key ∧ key ≠ str "custom" ∧ 6 < key.length then
    match key.drop 6 with
    | [] => str "custom:"
    | c :: rest => str "custom:" ++ downChar c :: rest
  else key

/-- Embeds `mapToAttributeList` (part_001 lines 74 to 91), the
application-to-provider direction of the attribute mapper. -/
def mapToAttributeList (attributes : List (List Char × List Char)) : List AttributeType :=
  attributes.map (fun kv => ⟨some (provName kv.1), some kv.2⟩)

/-- Provider-name transform of the application-to-provider direction as
the specification words it: a key that begins with the custom literal and
is strictly longer than it becomes the colon form with the remainder
first-lowercased, every other key is used unchanged.  Stated separately
from `provName` so the code transform can be compared against it. -/
def specProviderName (key : List Char) : List Char :=
  if (str "custom").isPrefixOf key ∧ 6 < key.length then
    match key.drop 6 with
    | [] => str "custom:"
    | c :: rest => str "custom:" ++ downChar c :: rest
  else key

/-- Embeds the JavaScript values relevant to the error paths: the
primitives, `Error` instances (a required name and message plus an
optional `code` property), and other non-null objects (optional `code`,
`name` and `message` properties, together with the JSON serialization
used as a fallback message). -/
inductive JSValue where
  | jsNull
  | jsUndefined
  | jsBool (b : Bool)
  | jsNum (n : Int)
  | jsStr (s : List Char)
  | jsErrorObj (code : Option (List Char)) (name : List Char) (message : List Char)
  | jsPlainObj (code : Option (List Char)) (name : Option (List Char))
      (message : Option (List Char)) (json : List Char)
deriving DecidableEq

/-- The three-field error record produced by the error normalizer. -/
structure ErrorInfo where
  code : List Char
  name : List Char
  message : List Char
deriving DecidableEq

/-- Embeds the JavaScript `String(x)` conversion on the embedded values:
primitives print in the usual way, `Error` instances print through
`Error.prototype.toString`, other objects print as object-Object. -/
def jsToString : JSValue → List Char
  | .jsNull => str "null"
  | .jsUndefined => str "undefined"
  | .jsBool true => str "true"
  | .jsBool false => str "false"
  | .jsNum n => (toString n).data
  | .jsStr s => s
  | .jsErrorObj _ name message =>
    if message = [] then name
    else if name = [] then message
    else name ++ str ": " ++ message
  | .jsPlainObj _ _ _ _ => str "[object Object]"

/-- Embeds the JavaScript `x || d` idiom on an optional string field: the
default is taken when the field is absent or empty. -/
def orFalsy : Option (List Char) → List Char → List Char
  | some s, d => if s.isEmpty then d else s
  | none, d => d

/-- Embeds `formatError` (part_001 lines 159 to 183): an `Error` instance
keeps its name and message and falls back on its `code` property, any
other non-null object falls back field by field with the JSON
serialization as the message default, and anything else is
string-converted. -/
def formatError (error : JSValue) : ErrorInfo :=
  match error with
  | .jsErrorObj code name message =>
    ⟨orFalsy code (str "UnknownError"), name, message⟩
  | .jsPlainObj code name message json =>
    ⟨orFalsy code (str "UnknownError"), orFalsy name (str "UnknownError"),
      orFalsy message json⟩
  | v => ⟨str "UnknownError", str "UnknownError", jsToString v⟩

/-- Embeds the AWS SDK `AuthenticationResultType`: all fields optional. -/
structure AuthenticationResultType where
  AccessToken : Option (List Char)
  ExpiresIn : Option Int
  IdToken : Option (List Char)
  RefreshToken : Option (List Char)
  TokenType : Option (List Char)
deriving DecidableEq

/-- The simplified authentication response built by `mapAuthResult`. -/
structure AuthResponse where
  accessToken : List Char
  idToken : List Char
  refreshToken : List Char
  expiresIn : Int
  tokenType : List Char
deriving DecidableEq

/-- The error thrown by `mapAuthResult` when its falsiness check on the
four required fields fails (part_001 line 28). -/
def invalidAuthError : JSValue :=
  .jsErrorObj none (str "Error") (str "Invalid authentication result from Cognito")

/-- JavaScript truthiness of an optional number: an absent field and zero
are falsy.  (The not-a-number value, also falsy, is outside the embedded
fragment.) -/
def truthyNum : Option Int → Bool
  | none => false
  | some n => decide (n ≠ 0)

/-- Embeds `mapAuthResult` (part_001 lines 26 to 38): throws when any of
the four required fields is falsy, otherwise copies the four fields and
defaults the token type to the Bearer literal when it is falsy. -/
def mapAuthResult (result : AuthenticationResultType) : Except JSValue AuthResponse :=
  if !truthy result.AccessToken || !truthy result.IdToken ||
      !truthy result.RefreshToken || !truthyNum result.ExpiresIn then
    .error invalidAuthError
  else
    .ok
      { accessToken := result.AccessToken.getD []
        idToken := result.IdToken.getD []
        refreshToken := result.RefreshToken.getD []
        expiresIn := result.ExpiresIn.getD 0
        tokenType := orFalsy result.TokenType (str "Bearer") }

/-- The operation names of the thirty-three admin facade methods, in
source order (part_000 lines 594 to 1746), exactly as each appears in the
wrapped error message of its catch block. -/
def adminOpNames : List (List Char) :=
  [str "CreateUser", str "GetUser", str "UpdateUserAttributes", str "DisableUser",
   str "EnableUser", str "DeleteUser", str "ListUsers", str "InitiateAuth",
   str "RespondToAuthChallenge", str "ResetUserPassword", str "SetUserPassword",
   str "AdminConfirmSignUp", str "AdminAddUserToGroup", str "AdminRemoveUserFromGroup",
   str "ListGroups", str "CreateGroup", str "GetGroup", str "UpdateGroup",
   str "DeleteGroup", str "ListUsersInGroup", str "AdminListGroupsForUser",
   str "AdminSetUserMFAPreference", str "AdminLinkProviderForUser",
   str "AdminGetDevice", str "AdminForgetDevice", str "AdminListDevices",
   str "AdminUserGlobalSignOut", str "AdminDeleteUserAttributes",
   str "AdminDisableProviderForUser", str "AdminListUserAuthEvents",
   str "AdminSetUserSettings", str "AdminUpdateAuthEventFeedback",
   str "AdminUpdateDeviceStatus"]

/-- Embeds the shared catch block of every `CognitoAdminClient` operation
(part_000 lines 638 to 644 and its thirty-two copies): rethrow the
original value when the construction-time flag is set, otherwise throw a
fresh `Error` whose message is the operation name, the error-colon
separator, and the normalized message. -/
def runAdminCatch (throwOriginalErrors : Bool) (opName : List Char) (error : JSValue) :
    JSValue :=
  if throwOriginalErrors then error
  else .jsErrorObj none (str "Error") (opName ++ str " error: " ++ (formatError error).message)

/-- An admin facade operation around its remote call: a successful remote
result is returned, a thrown one goes through the shared catch block. -/
def runAdminOp {α : Type} (throwOriginalErrors : Bool) (opName : List Char)
    (remote : Except JSValue α) : Except JSValue α :=
  match remote with
  | .ok a => .ok a
  | .error e => .error (runAdminCatch throwOriginalErrors opName e)

/-- Embeds the optional device container of a raw `GetDevice` response.
Timestamps are embedded as integer epochs. -/
structure DeviceRaw where
  DeviceKey : Option (List Char)
  DeviceAttributes : Option (List AttributeType)
  DeviceCreateDate : Option Int
  DeviceLastModifiedDate : Option Int
  DeviceLastAuthenticatedDate : Option Int
deriving DecidableEq

/-- The device record built by `getDevice`. -/
structure DeviceType where
  deviceKey : List Char
  deviceAttributes : List (List Char × List Char)
  deviceCreateDate : Int
  deviceLastModifiedDate : Int
  deviceLastAuthenticatedDate : Option Int
deriving DecidableEq

/-- Embeds the response handling of `CognitoUserClient.getDevice`
(CognitoUserClient.ts lines 455 to 481): throws when the device container
is absent, otherwise defaults the key to the empty string, the creation
and last-modified timestamps to the current time `now`, and leaves the
last-authenticated timestamp absent when absent. -/
def getDevice (now : Int) (device : Option DeviceRaw) : Except JSValue DeviceType :=
  match device with
  | none =>
    .error (.jsErrorObj none (str "Error")
      (str "Failed to get device: No device information returned"))
  | some d =>
    .ok
      { deviceKey := d.DeviceKey.getD []
        deviceAttributes := mapAttributes (d.DeviceAttributes.getD [])
        deviceCreateDate := d.DeviceCreateDate.getD now
        deviceLastModifiedDate := d.DeviceLastModifiedDate.getD now
        deviceLastAuthenticatedDate := d.DeviceLastAuthenticatedDate }

/-- Embeds `extractAccessToken` (part_002 lines 6 to 10): the empty
header yields the empty string, a Bearer-prefixed header yields the part
after the seven-character Bearer-and-space literal, anything else is
returned unchanged. -/
def extractAccessToken (authHeader : List Char) : List Char :=
  if authHeader.isEmpty then []
  else if (str "Bearer ").isPrefixOf authHeader then authHeader.drop 7
  else authHeader

/-- Embeds `CognitoUserClient.getErrorInfo` (CognitoUserClient.ts lines
709 to 722): the code field is always the UnknownError literal; an
`Error` instance contributes its name and message, anything else gets the
name Error and its string conversion as message. -/
def getErrorInfo : JSValue → ErrorInfo
  | .jsErrorObj _ name message => ⟨str "UnknownError", name, message⟩
  | v => ⟨str "UnknownError", str "Error", jsToString v⟩

/-! Helper lemmas about the character and list operations. -/

theorem char_toNat_ofNat {n : Nat} (h : n.isValidChar) : (Char.ofNat n).toNat = n := by
  simp only [Char.ofNat, h, dif_pos]
  rcases h with h | ⟨h1, h2⟩ <;>
    simp [Char.ofNatAux, Char.toNat, UInt32.toNat, BitVec.toNat_ofNat, Nat.mod_eq_of_lt]

theorem isAsciiLower_bounds {c : Char} (h : isAsciiLower c = true) :
    97 ≤ c.toNat ∧ c.toNat ≤ 122 := by
  simpa [isAsciiLower] using h

theorem upChar_toNat {c : Char} (h : isAsciiLower c = true) :
    (upChar c).toNat = c.toNat - 32 := by
  obtain ⟨h1, h2⟩ := isAsciiLower_bounds h
  rw [upChar, if_pos h, char_toNat_ofNat]
  exact Or.inl (by omega)

theorem downChar_upChar {c : Char} (h : isAsciiLower c = true) :
    downChar (upChar c) = c := by
  obtain ⟨h1, h2⟩ := isAsciiLower_bounds h
  have ht := upChar_toNat h
  have hu : isAsciiUpper (upChar c) = true := by
    simp only [isAsciiUpper, ht, Bool.and_eq_true, decide_eq_true_eq]
    omega
  rw [downChar, if_pos hu, ht]
  have h32 : c.toNat - 32 + 32 = c.toNat := by omega
  rw [h32, Char.ofNat_toNat]

theorem isSep_upChar {c : Char} (h : isAsciiLower c = true) :
    isSep (upChar c) = false := by
  obtain ⟨h1, h2⟩ := isAsciiLower_bounds h
  have ht := upChar_toNat h
  have hd : upChar c ≠ '-' := by
    intro he
    rw [he] at ht
    have h45 : ('-').toNat = 45 := rfl
    omega
  have hu : upChar c ≠ '_' := by
    intro he
    rw [he] at ht
    have h95 : ('_').toNat = 95 := rfl
    omega
  simp [isSep, hd, hu]

theorem isPrefixOf_append (p t : List Char) : p.isPrefixOf (p ++ t) = true := by
  induction p with
  | nil => simp [List.isPrefixOf]
  | cons a as ih => simp [List.isPrefixOf, ih]

theorem noSepPair_tail {a : Char} {l : List Char} (h : noSepPair (a :: l) = true) :
    noSepPair l = true := by
  cases l with
  | nil => rfl
  | cons b rest =>
    simp only [noSepPair, Bool.and_eq_true] at h
    exact h.2

theorem noSepPair_cons {a : Char} {l : List Char} (ha : isSep a = false)
    (hl : noSepPair l = true) : noSepPair (a :: l) = true := by
  cases l with
  | nil => rfl
  | cons b rest => simp [noSepPair, ha, hl]

theorem noSepPair_append {l₁ l₂ : List Char} (h₁ : ∀ a ∈ l₁, isSep a = false)
    (h₂ : noSepPair l₂ = true) : noSepPair (l₁ ++ l₂) = true := by
  induction l₁ with
  | nil => simpa using h₂
  | cons a as ih =>
    exact noSepPair_cons (h₁ a (List.mem_cons_self a as))
      (ih fun b hb => h₁ b (List.mem_cons_of_mem a hb))

theorem collapseSeps_id : ∀ l : List Char, noSepPair l = true → collapseSeps l = l
  | [], _ => rfl
  | [a], _ => rfl
  | a :: b :: rest, h => by
    simp only [noSepPair, Bool.and_eq_true, Bool.not_eq_eq_eq_not, Bool.not_true] at h
    obtain ⟨h1, h2⟩ := h
    simp only [collapseSeps, h1, Bool.false_eq_true, if_false]
    exact congrArg (a :: ·) (collapseSeps_id (b :: rest) h2)

theorem truthy_some {v : List Char} (hv : v ≠ []) : truthy (some v) = true := by
  cases v with
  | nil => exact absurd rfl hv
  | cons a as => rfl

theorem attrKey_custom (c : Char) (rest : List Char) :
    attrKey (str "custom:" ++ c :: rest) = collapseSeps (str "custom" ++ upChar c :: rest) := by
  have hd : (str "custom:" ++ c :: rest).drop 7 = c :: rest := by
    rw [show (7 : Nat) = (str "custom:").length from rfl, List.drop_left]
  rw [attrKey, customStep, if_pos (isPrefixOf_append _ _), hd]

theorem provName_custom {c : Char} (rest : List Char) (hc : isAsciiLower c = true) :
    provName (str "custom" ++ upChar c :: rest) = str "custom:" ++ c :: rest := by
  have hd : (str "custom" ++ upChar c :: rest).drop 6 = upChar c :: rest := by
    rw [show (6 : Nat) = (str "custom").length from rfl, List.drop_left]
  have hcond : (str "custom").isPrefixOf (str "custom" ++ upChar c :: rest) = true ∧
      str "custom" ++ upChar c :: rest ≠ str "custom" ∧
      6 < (str "custom" ++ upChar c :: rest).length := by
    refine ⟨isPrefixOf_append _ _, ?_, ?_⟩
    · intro he
      have hlen := congrArg List.length he
      simp [List.length_append, str] at hlen
    · simp [List.length_append, str]
  rw [provName, if_pos hcond, hd]
  show str "custom:" ++ downChar (upChar c) :: rest = str "custom:" ++ c :: rest
  rw [downChar_upChar hc]

theorem provName_eq_specProviderName (key : List Char) : provName key = specProviderName key := by
  rw [provName, specProviderName]
  by_cases h1 : (str "custom").isPrefixOf key = true
  · by_cases h2 : 6 < key.length
    · have hne : key ≠ str "custom" := by
        intro he
        rw [he] at h2
        exact absurd h2 (by decide)
      rw [if_pos ⟨h1, hne, h2⟩, if_pos ⟨h1, h2⟩]
    · rw [if_neg fun h => h2 h.2.2, if_neg fun h => h2 h.2]
  · rw [if_neg fun h => h1 h.1, if_neg fun h => h1 h.1]

/-! Claim theorems. -/

/-- Claim C1, counterexample to the claim as stated: on the custom-
namespace name whose suffix starts with an uppercase letter, with a
non-empty value, the round trip lowercases the suffix and is therefore
not the identity. -/
theorem roundtrip_custom_cex :
    mapToAttributeList (mapAttributes [⟨some (str "custom:Role"), some (str "admin")⟩]) ≠
      [⟨some (str "custom:Role"), some (str "admin")⟩] := by decide

/-- Claim C1 (amended): for a name in the reserved namespace whose suffix
is non-empty, starts with an ASCII lowercase letter and contains no dash
or underscore immediately followed by an ASCII lowercase letter, and for
a non-empty value, mapping the single pair through `mapAttributes` and
then `mapToAttributeList` is the identity. -/
theorem roundtrip_custom_amended (c : Char) (rest v : List Char)
    (hc : isAsciiLower c = true) (hrest : noSepPair (c :: rest) = true) (hv : v ≠ []) :
    mapToAttributeList (mapAttributes [⟨some (str "custom:" ++ c :: rest), some v⟩]) =
      [⟨some (str "custom:" ++ c :: rest), some v⟩] := by
  have hkey : attrKey (str "custom:" ++ c :: rest) = str "custom" ++ upChar c :: rest := by
    rw [attrKey_custom]
    apply collapseSeps_id
    apply noSepPair_append
    · decide
    · exact noSepPair_cons (isSep_upChar hc) (noSepPair_tail hrest)
  have hmap : mapAttributes [⟨some (str "custom:" ++ c :: rest), some v⟩] =
      [(str "custom" ++ upChar c :: rest, v)] := by
    rw [mapAttributes]
    simp only [List.foldl]
    rw [show truthy (some (str "custom:" ++ c :: rest)) = true from rfl, truthy_some hv]
    simp only [Bool.and_self, if_true, Option.getD_some, hkey]
    rfl
  rw [hmap, mapToAttributeList]
  simp only [List.map]
  rw [provName_custom rest hc]

/-- Claim C1, witness for the amended round-trip theorem at the
specification example name and value. -/
theorem roundtrip_custom_amended_witness :
    mapToAttributeList
        (mapAttributes [⟨some (str "custom:" ++ 'r' :: str "ole"), some (str "admin")⟩]) =
      [⟨some (str "custom:" ++ 'r' :: str "ole"), some (str "admin")⟩] :=
  roundtrip_custom_amended 'r' (str "ole") (str "admin") (by decide) (by decide) (by decide)

/-- Claim C3: for every entry with a present, non-empty name and value,
`mapAttributes` stores the value under the key obtained by applying the
custom-namespace step first and the separator collapse second; and the
specification scenario list maps to the expected application mapping. -/
theorem mapAttributes_key_pipeline :
    (∀ n v : List Char, n ≠ [] → v ≠ [] →
        mapAttributes [⟨some n, some v⟩] = [(collapseSeps (customStep n), v)]) ∧
      mapAttributes
          [⟨some (str "email"), some (str "a@b.com")⟩,
            ⟨some (str "custom:role"), some (str "admin")⟩,
            ⟨some (str "phone_number"), some (str "+15551234")⟩] =
        [(str "email", str "a@b.com"), (str "customRole", str "admin"),
          (str "phoneNumber", str "+15551234")] := by
  constructor
  · intro n v hn hv
    rw [mapAttributes]
    simp only [List.foldl]
    rw [truthy_some hn, truthy_some hv]
    simp only [Bool.and_self, if_true, Option.getD_some]
    rfl
  · decide

/-- Claim C3, witness for the single-entry key computation at a concrete
entry. -/
theorem mapAttributes_key_pipeline_witness :
    mapAttributes [⟨some (str "email"), some (str "a@b.com")⟩] =
      [(collapseSeps (customStep (str "email")), str "a@b.com")] :=
  mapAttributes_key_pipeline.1 (str "email") (str "a@b.com") (by decide) (by decide)

/-- Claim C4: `mapToAttributeList` outputs one pair per entry in
iteration order, each value unchanged, each name computed by the
specification transform: a key beginning with the custom literal and
strictly longer than it becomes the colon form with the remainder
first-lowercased, every other key is used unchanged. -/
theorem mapToAttributeList_spec (attrs : List (List Char × List Char)) :
    (mapToAttributeList attrs).length = attrs.length ∧
      ∀ i (hi : i < (mapToAttributeList attrs).length) (hj : i < attrs.length),
        ((mapToAttributeList attrs).get ⟨i, hi⟩).Name =
            some (specProviderName ((attrs.get ⟨i, hj⟩).1)) ∧
          ((mapToAttributeList attrs).get ⟨i, hi⟩).Value = some ((attrs.get ⟨i, hj⟩).2) := by
  constructor
  · simp [mapToAttributeList]
  · intro i hi hj
    simp [mapToAttributeList, provName_eq_specProviderName]

/-- Claim C4, witness at a two-entry mapping: the custom key is expanded
to the colon form and the separator-bearing camel-case key stays
unchanged. -/
theorem mapToAttributeList_spec_witness :
    ((mapToAttributeList
          [(str "customRole", str "admin"), (str "phoneNumber", str "+15551234")]).get
        ⟨1, by decide⟩).Name = some (specProviderName (str "phoneNumber")) ∧
      specProviderName (str "phoneNumber") = str "phoneNumber" ∧
      specProviderName (str "customRole") = str "custom:role" := by
  have h := (mapToAttributeList_spec
    [(str "customRole", str "admin"), (str "phoneNumber", str "+15551234")]).2 1
    (by decide) (by decide)
  exact ⟨h.1, by decide, by decide⟩

/-- Claim C2, counterexample to the claim as stated: a raw result whose
four required fields are all present fails anyway when the access token
is the empty string, so absence is not the exact failure condition. -/
theorem mapAuthResult_present_empty_cex :
    mapAuthResult ⟨some [], some 3600, some (str "t2"), some (str "t3"), none⟩ =
        .error invalidAuthError ∧
      (some ([] : List Char)).isSome = true := ⟨rfl, rfl⟩

/-- Claim C2 (amended): `mapAuthResult` fails with the invalid-result
error exactly when one of the four required fields is absent or falsy
(empty string for the three tokens, zero for the expiry); when all four
are present and non-falsy it copies them unchanged, and the token type
defaults to the Bearer literal when absent or empty and is copied
otherwise. -/
theorem mapAuthResult_amended (r : AuthenticationResultType) :
    (mapAuthResult r = .error invalidAuthError ↔
      r.AccessToken = none ∨ r.AccessToken = some [] ∨ r.IdToken = none ∨ r.IdToken = some [] ∨
        r.RefreshToken = none ∨ r.RefreshToken = some [] ∨ r.ExpiresIn = none ∨
        r.ExpiresIn = some 0) ∧
      ∀ a i rt e, r.AccessToken = some a → a ≠ [] → r.IdToken = some i → i ≠ [] →
        r.RefreshToken = some rt → rt ≠ [] → r.ExpiresIn = some e → e ≠ 0 →
        ((r.TokenType = none ∨ r.TokenType = some []) →
            mapAuthResult r = .ok ⟨a, i, rt, e, str "Bearer"⟩) ∧
          ∀ t, r.TokenType = some t → t ≠ [] → mapAuthResult r = .ok ⟨a, i, rt, e, t⟩ := by
  obtain ⟨f1, f2, f3, f4, f5⟩ := r
  have hcond : (!truthy f1 || !truthy f3 || !truthy f4 || !truthyNum f2) = true ↔
      (f1 = none ∨ f1 = some [] ∨ f3 = none ∨ f3 = some [] ∨
        f4 = none ∨ f4 = some [] ∨ f2 = none ∨ f2 = some 0) := by
    rcases f1 with _ | a <;> rcases f3 with _ | i <;> rcases f4 with _ | rt <;>
        rcases f2 with _ | e <;>
      simp [truthy, truthyNum, List.isEmpty_iff, or_assoc]
  constructor
  · simp only [mapAuthResult]
    split
    case isTrue h => exact iff_of_true rfl (hcond.mp h)
    case isFalse h => exact iff_of_false (by simp) fun hdj => h (hcond.mpr hdj)
  · intro a i rt e ha hane hi hine hrt hrtne he hene
    simp only at ha hi hrt he
    subst ha hi hrt he
    have hc : ¬((!truthy (some a) || !truthy (some i) || !truthy (some rt) ||
        !truthyNum (some e)) = true) := by
      simp [truthy_some hane, truthy_some hine, truthy_some hrtne, truthyNum, hene]
    constructor
    · intro htt
      simp only at htt
      simp only [mapAuthResult, if_neg hc]
      rcases htt with h5 | h5 <;> subst h5 <;> rfl
    · intro t ht htne
      simp only at ht
      subst ht
      simp only [mapAuthResult, if_neg hc]
      have hor : orFalsy (some t) (str "Bearer") = t := by
        simp [orFalsy, List.isEmpty_iff, htne]
      simp [hor]

/-- Claim C2, witness for the amended theorem at the specification
scenario input with all four fields present and non-falsy and the token
type absent. -/
theorem mapAuthResult_amended_witness :
    mapAuthResult ⟨some (str "t1"), some 3600, some (str "t2"), some (str "t3"), none⟩ =
      .ok ⟨str "t1", str "t2", str "t3", 3600, str "Bearer"⟩ :=
  ((mapAuthResult_amended ⟨some (str "t1"), some 3600, some (str "t2"), some (str "t3"), none⟩).2
    (str "t1") (str "t2") (str "t3") 3600 rfl (by decide) rfl (by decide) rfl (by decide) rfl
    (by decide)).1 (Or.inl rfl)

/-- Claim C9: the required-field checks of `mapAuthResult` are falsiness
checks, so a present-but-empty token, a present-but-zero expiry, and an
absent field all produce the same invalid-result error. -/
theorem mapAuthResult_falsy_checks (r : AuthenticationResultType) :
    (r.AccessToken = some [] → mapAuthResult r = .error invalidAuthError) ∧
      (r.IdToken = some [] → mapAuthResult r = .error invalidAuthError) ∧
      (r.RefreshToken = some [] → mapAuthResult r = .error invalidAuthError) ∧
      (r.ExpiresIn = some 0 → mapAuthResult r = .error invalidAuthError) ∧
      (r.AccessToken = none → mapAuthResult r = .error invalidAuthError) := by
  refine ⟨fun h => ?_, fun h => ?_, fun h => ?_, fun h => ?_, fun h => ?_⟩ <;>
    simp [mapAuthResult, h, truthy, truthyNum]

/-- Claim C9, witness: a present-but-zero expiry alongside otherwise
valid tokens is rejected with the invalid-result error. -/
theorem mapAuthResult_falsy_checks_witness :
    mapAuthResult ⟨some (str "t1"), some 0, some (str "t2"), some (str "t3"), none⟩ =
      .error invalidAuthError :=
  (mapAuthResult_falsy_checks
    ⟨some (str "t1"), some 0, some (str "t2"), some (str "t3"), none⟩).2.2.2.1 rfl

/-- Claim C5, counterexample to the claim as stated: an `Error` instance
whose `code` property is present but the empty string yields the
UnknownError default, not the present code field. -/
theorem formatError_claim_cex :
    formatError (.jsErrorObj (some []) (str "TypeError") (str "boom")) =
        ⟨str "UnknownError", str "TypeError", str "boom"⟩ ∧
      formatError (.jsErrorObj (some []) (str "TypeError") (str "boom")) ≠
        ⟨[], str "TypeError", str "boom"⟩ := ⟨rfl, by decide⟩

/-- Claim C5 (amended): `formatError` is total by construction and
computes its record by the first matching rule, with falsiness defaults:
an `Error` instance keeps its name and message and yields its `code`
property when present and non-empty, else UnknownError; any other
non-null object yields each field taken from the object when present and
non-empty, else the default (UnknownError for code and name, the JSON
serialization for message); anything else yields the UnknownError
literals with the string conversion of the value as message. -/
theorem formatError_amended (v : JSValue) :
    (∀ code n m, v = .jsErrorObj code n m →
      ((code = none ∨ code = some []) → formatError v = ⟨str "UnknownError", n, m⟩) ∧
        ∀ c, code = some c → c ≠ [] → formatError v = ⟨c, n, m⟩) ∧
      (∀ code nm ms js, v = .jsPlainObj code nm ms js →
        ((code = none ∨ code = some []) → (formatError v).code = str "UnknownError") ∧
          (∀ c, code = some c → c ≠ [] → (formatError v).code = c) ∧
          ((nm = none ∨ nm = some []) → (formatError v).name = str "UnknownError") ∧
          (∀ c, nm = some c → c ≠ [] → (formatError v).name = c) ∧
          ((ms = none ∨ ms = some []) → (formatError v).message = js) ∧
          ∀ c, ms = some c → c ≠ [] → (formatError v).message = c) ∧
      ((v = .jsNull ∨ v = .jsUndefined ∨ (∃ b, v = .jsBool b) ∨ (∃ n, v = .jsNum n) ∨
          ∃ s, v = .jsStr s) →
        formatError v = ⟨str "UnknownError", str "UnknownError", jsToString v⟩) := by
  refine ⟨?_, ?_, ?_⟩
  · rintro code n m rfl
    refine ⟨fun hc => ?_, fun c hc hcne => ?_⟩
    · rcases hc with rfl | rfl <;> rfl
    · subst hc
      simp [formatError, orFalsy, List.isEmpty_iff, hcne]
  · rintro code nm ms js rfl
    refine ⟨fun hc => ?_, fun c hc hcne => ?_, fun hn => ?_, fun c hn hcne => ?_,
      fun hm => ?_, fun c hm hcne => ?_⟩
    · rcases hc with rfl | rfl <;> rfl
    · subst hc
      simp [formatError, orFalsy, List.isEmpty_iff, hcne]
    · rcases hn with rfl | rfl <;> rfl
    · subst hn
      simp [formatError, orFalsy, List.isEmpty_iff, hcne]
    · rcases hm with rfl | rfl <;> rfl
    · subst hm
      simp [formatError, orFalsy, List.isEmpty_iff, hcne]
  · rintro (rfl | rfl | ⟨b, rfl⟩ | ⟨n, rfl⟩ | ⟨s, rfl⟩) <;> rfl

/-- Claim C5, witness: an `Error` instance carrying a non-empty code
keeps its three fields. -/
theorem formatError_amended_witness :
    formatError
        (.jsErrorObj (some (str "NotAuthorizedException")) (str "NotAuthorizedException")
          (str "bad credentials")) =
      ⟨str "NotAuthorizedException", str "NotAuthorizedException", str "bad credentials"⟩ :=
  ((formatError_amended _).1 _ _ _ rfl).2 _ rfl (by decide)

/-- Claim C6: for every admin facade operation and every thrown remote
failure the operation rejects (successes and only successes come back as
successes), and the rejected value is the original error when the
construction-time flag is true, and otherwise a fresh error whose message
is the operation name, the error-colon separator, and the normalized
message. -/
theorem adminOp_error_policy (α : Type) (throwOriginalErrors : Bool) (opName : List Char)
    (e : JSValue) (hop : opName ∈ adminOpNames) :
    (∀ (remote : Except JSValue α) (a : α),
        runAdminOp throwOriginalErrors opName remote = .ok a ↔ remote = .ok a) ∧
      (throwOriginalErrors = true →
        runAdminOp throwOriginalErrors opName (Except.error e : Except JSValue α) =
          .error e) ∧
      (throwOriginalErrors = false →
        runAdminOp throwOriginalErrors opName (Except.error e : Except JSValue α) =
          .error (.jsErrorObj none (str "Error")
            (opName ++ str " error: " ++ (formatError e).message))) := by
  refine ⟨fun remote a => ?_, fun hf => ?_, fun hf => ?_⟩
  · cases remote <;> simp [runAdminOp]
  · subst hf
    rfl
  · subst hf
    rfl

/-- Claim C6, witness: with the flag unset, a failing CreateUser call
rejects with the wrapped message. -/
theorem adminOp_error_policy_witness :
    runAdminOp false (str "CreateUser")
        (Except.error (JSValue.jsStr (str "kaboom")) : Except JSValue Unit) =
      .error (.jsErrorObj none (str "Error") (str "CreateUser error: kaboom")) :=
  ((adminOp_error_policy Unit false (str "CreateUser") (.jsStr (str "kaboom"))
    (by decide)).2.2 rfl).trans rfl

/-- Claim C7: `getDevice` fails exactly when the device container is
absent; a present container always succeeds, with the key defaulting to
the empty string, the creation and last-modified timestamps defaulting to
the current time, and the last-authenticated timestamp passed through
unchanged (absent stays absent). -/
theorem getDevice_spec (now : Int) :
    (∀ dev : Option DeviceRaw, (∃ e, getDevice now dev = .error e) ↔ dev = none) ∧
      ∀ d : DeviceRaw, ∃ rec, getDevice now (some d) = .ok rec ∧
        (d.DeviceKey = none → rec.deviceKey = []) ∧
        (d.DeviceCreateDate = none → rec.deviceCreateDate = now) ∧
        (d.DeviceLastModifiedDate = none → rec.deviceLastModifiedDate = now) ∧
        rec.deviceLastAuthenticatedDate = d.DeviceLastAuthenticatedDate := by
  constructor
  · intro dev
    cases dev with
    | none => exact iff_of_true ⟨_, rfl⟩ rfl
    | some d => simp [getDevice]
  · intro d
    refine ⟨_, rfl, fun h => ?_, fun h => ?_, fun h => ?_, rfl⟩ <;> simp [h]

/-- Claim C7, witness: a device container with every optional sub-field
absent still succeeds, with the empty-string key default. -/
theorem getDevice_spec_witness :
    (∃ e, getDevice 0 none = Except.error e) ∧
      ∃ rec, getDevice 0 (some ⟨none, none, none, none, none⟩) = .ok rec ∧
        rec.deviceKey = [] := by
  obtain ⟨rec, h1, h2, h3, h4, h5⟩ := (getDevice_spec 0).2 ⟨none, none, none, none, none⟩
  exact ⟨(getDevice_spec 0).1 none |>.mpr rfl, rec, h1, h2 rfl⟩

/-- Claim C8: `extractAccessToken` maps the three specification examples
as stated, and in general a Bearer-prefixed header yields the suffix
after the prefix literal, any other non-empty header is returned
unchanged, and the empty header yields the empty string. -/
theorem extractAccessToken_spec :
    extractAccessToken (str "Bearer abc123") = str "abc123" ∧
      extractAccessToken (str "abc123") = str "abc123" ∧
      extractAccessToken [] = [] ∧
      (∀ t, extractAccessToken (str "Bearer " ++ t) = t) ∧
      ∀ h, h ≠ [] → (str "Bearer ").isPrefixOf h = false → extractAccessToken h = h := by
  refine ⟨by decide, by decide, rfl, fun t => ?_, fun h hne hpre => ?_⟩
  · rw [extractAccessToken, if_neg, if_pos (isPrefixOf_append _ _)]
    · rw [show (7 : Nat) = (str "Bearer ").length from rfl, List.drop_left]
    · intro hc
      rw [List.isEmpty_iff] at hc
      exact absurd (List.append_eq_nil.mp hc).1 (by decide)
  · rw [extractAccessToken, if_neg, if_neg]
    · simp [hpre]
    · simp [List.isEmpty_iff, hne]

/-- Claim C8, witness for the general non-empty non-Bearer clause. -/
theorem extractAccessToken_spec_witness :
    extractAccessToken (str "xyz") = str "xyz" :=
  extractAccessToken_spec.2.2.2.2 (str "xyz") (by decide) (by decide)

/-- Claim C10: `CognitoUserClient.getErrorInfo` always returns the
UnknownError code, never reading a code field from the input; an `Error`
instance contributes its name and message, and any non-Error input yields
the name Error with the string conversion as message. -/
theorem getErrorInfo_spec (v : JSValue) :
    (getErrorInfo v).code = str "UnknownError" ∧
      (∀ c n m, v = .jsErrorObj c n m → getErrorInfo v = ⟨str "UnknownError", n, m⟩) ∧
      ((∀ c n m, v ≠ .jsErrorObj c n m) →
        getErrorInfo v = ⟨str "UnknownError", str "Error", jsToString v⟩) := by
  cases v with
  | jsErrorObj c n m =>
    refine ⟨rfl, fun c2 n2 m2 he => ?_, fun hno => absurd rfl (hno c n m)⟩
    injection he with h1 h2 h3
    subst h2
    subst h3
    rfl
  | jsNull => exact ⟨rfl, fun _ _ _ he => JSValue.noConfusion he, fun _ => rfl⟩
  | jsUndefined => exact ⟨rfl, fun _ _ _ he => JSValue.noConfusion he, fun _ => rfl⟩
  | jsBool b => exact ⟨rfl, fun _ _ _ he => JSValue.noConfusion he, fun _ => rfl⟩
  | jsNum n => exact ⟨rfl, fun _ _ _ he => JSValue.noConfusion he, fun _ => rfl⟩
  | jsStr s => exact ⟨rfl, fun _ _ _ he => JSValue.noConfusion he, fun _ => rfl⟩
  | jsPlainObj c n m j => exact ⟨rfl, fun _ _ _ he => JSValue.noConfusion he, fun _ => rfl⟩

/-- Claim C10, witness: a structured error carrying a code still comes
back with the UnknownError code, keeping only its name and message. -/
theorem getErrorInfo_spec_witness :
    getErrorInfo (.jsErrorObj (some (str "AccessDenied")) (str "E") (str "boom")) =
      ⟨str "UnknownError", str "E", str "boom"⟩ :=
  (getErrorInfo_spec _).2.1 _ _ _ rfl
